import Mathlib

/-!
Verification of the KenPire trust & coordination core: a shallow embedding
of `src/kenpire/core/security.py` (SecurityHardening, ProofLock) and
`src/kenpire/core/mesh.py` (MeshOrchestrator), with theorems settling the
specification's claims about credential issuance and validation, sliding
window rate limiting, proof-of-work generation and verification, and the
threshold consensus tally.

Modelling conventions, stated once:
* Python dicts are association lists `List (String × α)`; assignment to an
  existing key replaces the value in place (preserving position, as Python
  dict assignment preserves insertion order), assignment to a fresh key
  appends.
* `datetime` instants are `Nat` (seconds); `timedelta(days=90)` is 7776000
  seconds; comparison of the ISO strings the code stores agrees with
  comparison of the instants.
* `time.time()` instants are `ℚ` (every IEEE double is a rational).
* `secrets` randomness (the generated api key text) is a caller supplied
  parameter: the model takes the fresh token as an argument.
* the SHA-256 hex digest is an abstract function `H : String → String`
  passed to the ProofLock operations; every theorem holds for all `H`.
* the security event log is not modelled: no claim under proof depends on
  its contents.
-/

namespace Kenpire

/-- Python dict lookup on an association list (first match). -/
def assocGet {α : Type} : List (String × α) → String → Option α
  | [], _ => none
  | (k, v) :: rest, key => if k = key then some v else assocGet rest key

/-- Python dict assignment: replace the value of an existing key in place,
append a fresh key at the end. -/
def assocSet {α : Type} : List (String × α) → String → α → List (String × α)
  | [], key, v => [(key, v)]
  | (k, w) :: rest, key, v =>
    if k = key then (key, v) :: rest else (k, w) :: assocSet rest key v

/-- One record of `SecurityHardening.api_keys` (the `key_data` dict built by
`generate_api_key`). -/
structure KeyData where
  userId : String
  permissions : List String
  createdAt : Nat
  expiresAt : Nat
  lastUsed : Option Nat
  usageCount : Nat
deriving DecidableEq

/-- `SecurityHardening.generate_api_key(user_id, permissions=None)`.
The store is `api_keys`; `token` stands for the freshly generated
`kp_`-prefixed random key text; returns the key and the updated store.
The default `["basic_access"]` applies exactly when the argument is
`None` (`none`): the code tests `permissions is None`. -/
def generateApiKey (store : List (String × KeyData)) (userId : String)
    (permissions : Option (List String)) (token : String) (now : Nat) :
    String × List (String × KeyData) :=
  let perms := match permissions with
    | none => ["basic_access"]
    | some ps => ps
  (token, assocSet store token
    { userId := userId
      permissions := perms
      createdAt := now
      expiresAt := now + 7776000
      lastUsed := none
      usageCount := 0 })

/-- The distinguishable outcomes of `validate_api_key` (the code returns
dicts `\x7b"valid": False, "reason": ...\x7d` or
`\x7b"valid": True, "user_id": ..., "permissions": ...\x7d`). -/
inductive ValidationResult where
  | invalid
  | expired
  | insufficient (required : String)
  | valid (userId : String) (permissions : List String)
deriving DecidableEq

/-- `SecurityHardening.validate_api_key(api_key, required_permission=None)`.
The permission test is the code's `if required_permission and
required_permission not in key_data["permissions"]`: Python truthiness
skips the check for `None` and for the empty string alike. On success the
record's `last_used` and `usage_count` are updated; every failure path
leaves the store unchanged. -/
def validateApiKey (store : List (String × KeyData)) (apiKey : String)
    (requiredPermission : Option String) (now : Nat) :
    ValidationResult × List (String × KeyData) :=
  match assocGet store apiKey with
  | none => (ValidationResult.invalid, store)
  | some keyData =>
    if keyData.expiresAt < now then (ValidationResult.expired, store)
    else
      let ok := (ValidationResult.valid keyData.userId keyData.permissions,
        assocSet store apiKey
          { keyData with lastUsed := some now, usageCount := keyData.usageCount + 1 })
      match requiredPermission with
      | some rp =>
        if rp ≠ "" ∧ rp ∉ keyData.permissions then
          (ValidationResult.insufficient rp, store)
        else ok
      | none => ok

/-- `SecurityHardening.apply_rate_limiting(identifier, limit, window)`.
The store is `rate_limits` mapping identifier to its timestamp list; the
code prunes to the timestamps strictly newer than `now - window`, stores
the pruned list, denies when its length has reached `limit`, and otherwise
appends `now` and admits. -/
def applyRateLimiting (limits : List (String × List ℚ)) (ident : String)
    (limit : Nat) (window : ℚ) (now : ℚ) : Bool × List (String × List ℚ) :=
  let current := (assocGet limits ident).getD []
  let pruned := current.filter (fun t => decide (now - window < t))
  if limit ≤ pruned.length then
    (false, assocSet limits ident pruned)
  else
    (true, assocSet limits ident (pruned ++ [now]))

/-- A Python value `generate_proof` / `verify_proof` may receive as `data`:
a string, an integer, or a dict with string keys (the code branches on
`isinstance(data, dict)` and treats everything else through `str`). -/
inductive PyValue where
  | pyStr : String → PyValue
  | pyInt : Int → PyValue
  | pyDict : List (String × PyValue) → PyValue

/-- Insert one dict item into a key-sorted item list (`sorted` compares the
`(key, value)` tuples; dict keys are distinct, so key order decides). -/
def insertByKey (kv : String × PyValue) :
    List (String × PyValue) → List (String × PyValue)
  | [] => [kv]
  | kw :: rest =>
    if kv.1 ≤ kw.1 then kv :: kw :: rest else kw :: insertByKey kv rest

/-- `sorted(data.items())` on a dict with (distinct) string keys. -/
def sortItems : List (String × PyValue) → List (String × PyValue)
  | [] => []
  | kv :: rest => insertByKey kv (sortItems rest)

/-- `", ".join`-style rendering used by Python `str` of lists and dicts. -/
def joinComma : List String → String
  | [] => ""
  | [s] => s
  | s :: (t :: rest) => s ++ ", " ++ joinComma (t :: rest)

mutual

/-- Python `repr`, for the values inside a rendered container: a string is
single-quoted, an integer prints its digits, a dict prints
`\x7b'k': v, ...\x7d`. -/
def pyRepr : PyValue → String
  | PyValue.pyStr s => "\x27" ++ s ++ "\x27"
  | PyValue.pyInt n => toString n
  | PyValue.pyDict kvs => "\x7b" ++ joinComma (pyReprItems kvs) ++ "\x7d"

/-- The rendered `'key': repr(value)` pieces of a dict, in order. -/
def pyReprItems : List (String × PyValue) → List String
  | [] => []
  | (k, v) :: rest => ("\x27" ++ k ++ "\x27: " ++ pyRepr v) :: pyReprItems rest

end

/-- The `data_string` both ProofLock methods build: `str(sorted(data.items()))`
for a dict, `str(data)` otherwise (`str` of a string is the string itself,
`str` of an int is its decimal digits). -/
def pyStrOf : PyValue → String
  | PyValue.pyStr s => s
  | PyValue.pyInt n => toString n
  | PyValue.pyDict kvs =>
    "[" ++ joinComma ((sortItems kvs).map
      (fun kv => "(\x27" ++ kv.1 ++ "\x27, " ++ pyRepr kv.2 ++ ")")) ++ "]"

/-- Python `s.startswith(t)`: the characters of `t` lead the characters of
`s`. -/
def strStartsWith (s t : String) : Bool := t.data.isPrefixOf s.data

/-- The difficulty target `"0" * difficulty`. -/
def zeros (difficulty : Nat) : String := String.mk (List.replicate difficulty '0')

/-- The mining loop of `generate_proof`, with explicit fuel, returning the
found nonce (if any) together with the number of hash attempts made. The
loop body hashes `f"\x7bdata_string\x7d\x7bnonce\x7d"`, returns on success,
and otherwise increments the nonce, raising once it passes 1000000. -/
def mineGo (H : String → String) (dataString target : String) :
    Nat → Nat → Option Nat × Nat
  | 0, _ => (none, 0)
  | fuel + 1, nonce =>
    if strStartsWith (H (dataString ++ toString nonce)) target then (some nonce, 1)
    else
      let r := mineGo H dataString target fuel (nonce + 1)
      (r.1, r.2 + 1)

/-- The code raises `"ProofLock mining timeout"` after `nonce` passes
1000000, so nonces 0 through 1000000 inclusive are attempted: 1000001
attempts of fuel. -/
def mineBudget : Nat := 1000001

/-- The whole nonce search of `generate_proof`: start at nonce 0 with the
loop's full budget. -/
def mine (H : String → String) (dataString target : String) : Option Nat × Nat :=
  mineGo H dataString target mineBudget 0

/-- The proof record `generate_proof` returns (`mining_time` and
`timestamp`, which are wall-clock observations no claim depends on, are
not modelled). -/
structure Proof where
  dataHash : String
  nonce : Nat
  proofHash : String
  difficulty : Nat
deriving DecidableEq

/-- `ProofLock.generate_proof(data)` at instance difficulty `difficulty`,
with `H` the SHA-256 hex digest: `none` models the mining-timeout
exception. -/
def generateProof (H : String → String) (data : PyValue) (difficulty : Nat) :
    Option Proof :=
  let dataString := pyStrOf data
  match (mine H dataString (zeros difficulty)).1 with
  | some nonce =>
    some { dataHash := H dataString
           nonce := nonce
           proofHash := H (dataString ++ toString nonce)
           difficulty := difficulty }
  | none => none

/-- `ProofLock.verify_proof(data, proof)`: recompute the data hash, then
the proof hash at the proof's nonce, then check the leading zeros against
the proof's own claimed `difficulty` field; any mismatch returns `False`. -/
def verifyProof (H : String → String) (data : PyValue) (proof : Proof) : Bool :=
  let dataString := pyStrOf data
  if H dataString ≠ proof.dataHash then false
  else if H (dataString ++ toString proof.nonce) ≠ proof.proofHash then false
  else if ¬ strStartsWith proof.proofHash (zeros proof.difficulty) then false
  else true

/-- One record of `MeshOrchestrator.nodes` (`node_info` metadata is an
opaque string; `last_seen` an instant). -/
structure NodeRec where
  info : String
  status : String
  lastSeen : Nat
  consensusVotes : Nat
deriving DecidableEq

/-- The orchestrator's mutable state: the node registry and `mesh_stats`. -/
structure MeshState where
  nodes : List (String × NodeRec)
  activeNodes : Nat
  consensusAchieved : Nat
  failedConsensus : Nat
deriving DecidableEq

/-- `MeshOrchestrator.__init__`. -/
def initialMeshState : MeshState :=
  { nodes := [], activeNodes := 0, consensusAchieved := 0, failedConsensus := 0 }

/-- `MeshOrchestrator.register_node(node_id, node_info)`: unconditionally
writes a fresh record with status `"active"` and `consensus_votes` 0, then
recounts the active nodes. -/
def registerNode (s : MeshState) (nodeId info : String) (now : Nat) : MeshState :=
  let nodes' := assocSet s.nodes nodeId
    { info := info, status := "active", lastSeen := now, consensusVotes := 0 }
  { nodes := nodes'
    activeNodes := (nodes'.filter (fun kv => kv.2.status == "active")).length
    consensusAchieved := s.consensusAchieved
    failedConsensus := s.failedConsensus }

/-- `MeshOrchestrator._simulate_node_vote(proposal)`: always votes yes (the
`asyncio.sleep` is a pure delay). -/
def simulateNodeVote (proposal : String) : Bool := true

/-- The two shapes of dict `achieve_consensus` returns: the early
`\x7b"status": "no_nodes", "consensus": False\x7d`, or the full
`"consensus_complete"` result. -/
inductive ConsensusOutcome where
  | noNodes
  | complete (consensus : Bool) (votes requiredVotes totalNodes : Nat)
deriving DecidableEq

/-- `MeshOrchestrator.achieve_consensus(proposal)`. The guard is the code's
`if not self.nodes`: it tests registry emptiness, not the active count.
`required_votes = max(1, int(len(active_nodes) * 0.67))` is modelled as
`max 1 (n * 67 / 100)` with Nat division, which agrees with the float
product truncation at every count this development evaluates it at. -/
def achieveConsensus (s : MeshState) (proposal : String) :
    ConsensusOutcome × MeshState :=
  if s.nodes.isEmpty then (ConsensusOutcome.noNodes, s)
  else
    let active := s.nodes.filter (fun kv => kv.2.status == "active")
    let requiredVotes := max 1 (active.length * 67 / 100)
    let votes := (active.filter (fun _ => simulateNodeVote proposal)).length
    let nodes' := s.nodes.map (fun kv =>
      if kv.2.status == "active" && simulateNodeVote proposal then
        (kv.1, { kv.2 with consensusVotes := kv.2.consensusVotes + 1 })
      else kv)
    let achieved := decide (requiredVotes ≤ votes)
    (ConsensusOutcome.complete achieved votes requiredVotes active.length,
      { nodes := nodes'
        activeNodes := s.activeNodes
        consensusAchieved := s.consensusAchieved + (if achieved then 1 else 0)
        failedConsensus := s.failedConsensus + (if achieved then 0 else 1) })

/-- The orchestrator states the program can actually be in: produced from
`__init__` by `register_node` and `achieve_consensus` calls. -/
inductive Reachable : MeshState → Prop
  | init : Reachable initialMeshState
  | register (s : MeshState) (nodeId info : String) (now : Nat) :
      Reachable s → Reachable (registerNode s nodeId info now)
  | consensus (s : MeshState) (proposal : String) :
      Reachable s → Reachable (achieveConsensus s proposal).2

/-- A fixed injective-enough stand-in digest used to instantiate the
`H`-generic theorems at concrete inputs: every output has one leading
zero. -/
def hashA (s : String) : String := "0" ++ s

/-- A stand-in digest with no qualifying output at all: mining under it
exhausts the attempt budget. -/
def hashB (s : String) : String := "f"

/-! ## Association-list lemmas -/

theorem assocGet_assocSet_self {α : Type} (l : List (String × α)) (k : String)
    (v : α) : assocGet (assocSet l k v) k = some v := by
  induction l with
  | nil => simp [assocGet, assocSet]
  | cons hd tl ih =>
    obtain ⟨a, b⟩ := hd
    by_cases h : a = k
    · simp [assocSet, assocGet, h]
    · simp [assocSet, assocGet, h, ih]

theorem mem_assocSet {α : Type} {l : List (String × α)} {k : String} {v : α}
    {kv : String × α} (h : kv ∈ assocSet l k v) : kv = (k, v) ∨ kv ∈ l := by
  induction l with
  | nil => simp [assocSet] at h; simp [h]
  | cons hd tl ih =>
    obtain ⟨a, b⟩ := hd
    by_cases hk : a = k
    · simp [assocSet, hk] at h
      rcases h with h | h
      · exact Or.inl (by simp [h])
      · exact Or.inr (by simp [h])
    · simp [assocSet, hk] at h
      rcases h with h | h
      · exact Or.inr (by simp [h])
      · rcases ih h with h' | h'
        · exact Or.inl h'
        · exact Or.inr (by simp [h'])

/-! ## Mining-loop lemmas -/

theorem mineGo_succ (H : String → String) (ds target : String) (fuel nonce : Nat) :
    mineGo H ds target (fuel + 1) nonce =
      if strStartsWith (H (ds ++ toString nonce)) target then (some nonce, 1)
      else ((mineGo H ds target fuel (nonce + 1)).1,
            (mineGo H ds target fuel (nonce + 1)).2 + 1) := rfl

/-- When no nonce at all qualifies, the loop consumes its whole fuel and
reports exactly that many attempts. -/
theorem mineGo_none_all (H : String → String) (ds target : String)
    (h : ∀ n : Nat, strStartsWith (H (ds ++ toString n)) target = false) :
    ∀ fuel nonce, mineGo H ds target fuel nonce = (none, fuel) := by
  intro fuel
  induction fuel with
  | zero => intro nonce; rfl
  | succ f ih =>
    intro nonce
    rw [mineGo_succ, if_neg (by simp [h nonce]), ih (nonce + 1)]

/-- A successful search returns the smallest qualifying nonce at or past
the start, within fuel, and counts one attempt per nonce tried. -/
theorem mineGo_some_spec (H : String → String) (ds target : String) :
    ∀ fuel nonce n a, mineGo H ds target fuel nonce = (some n, a) →
      strStartsWith (H (ds ++ toString n)) target = true ∧
      nonce ≤ n ∧ n < nonce + fuel ∧ a = n + 1 - nonce ∧
      ∀ m, nonce ≤ m → m < n →
        strStartsWith (H (ds ++ toString m)) target = false := by
  intro fuel
  induction fuel with
  | zero => intro nonce n a h; exact absurd h (by simp [mineGo])
  | succ f ih =>
    intro nonce n a h
    rw [mineGo_succ] at h
    by_cases hq : strStartsWith (H (ds ++ toString nonce)) target = true
    · rw [if_pos hq] at h
      rw [Prod.mk.injEq, Option.some.injEq] at h
      obtain ⟨rfl, rfl⟩ := h
      exact ⟨hq, Nat.le_refl _, by omega, by omega, fun m h1 h2 => by omega⟩
    · rw [if_neg hq] at h
      rw [Prod.mk.injEq] at h
      obtain ⟨h1, h2⟩ := h
      have hr : mineGo H ds target f (nonce + 1) =
          (some n, (mineGo H ds target f (nonce + 1)).2) := by
        rw [← h1]
      obtain ⟨q1, q2, q3, q4, q5⟩ := ih (nonce + 1) n _ hr
      refine ⟨q1, by omega, by omega, by omega, fun m hm1 hm2 => ?_⟩
      rcases Nat.eq_or_lt_of_le hm1 with rfl | hm1'
      · simpa using hq
      · exact q5 m hm1' hm2

/-- A failed search consumed exactly its fuel in attempts. -/
theorem mineGo_none_fuel (H : String → String) (ds target : String) :
    ∀ fuel nonce a, mineGo H ds target fuel nonce = (none, a) → a = fuel := by
  intro fuel
  induction fuel with
  | zero =>
    intro nonce a h
    rw [show mineGo H ds target 0 nonce = (none, 0) from rfl, Prod.mk.injEq] at h
    omega
  | succ f ih =>
    intro nonce a h
    rw [mineGo_succ] at h
    by_cases hq : strStartsWith (H (ds ++ toString nonce)) target = true
    · rw [if_pos hq] at h; exact absurd h (by simp)
    · rw [if_neg hq, Prod.mk.injEq] at h
      obtain ⟨h1, h2⟩ := h
      have hr : mineGo H ds target f (nonce + 1) =
          (none, (mineGo H ds target f (nonce + 1)).2) := by
        rw [← h1]
      rw [← h2, ih (nonce + 1) _ hr]

/-- What a returned proof record looks like: its fields, the leading-zero
property of its hash, the bound on its nonce, and its minimality among all
smaller nonces. -/
theorem generateProof_spec (H : String → String) (p : PyValue) (d : Nat)
    (proof : Proof) (hg : generateProof H p d = some proof) :
    proof.dataHash = H (pyStrOf p) ∧
    proof.proofHash = H (pyStrOf p ++ toString proof.nonce) ∧
    proof.difficulty = d ∧
    strStartsWith proof.proofHash (zeros d) = true ∧
    proof.nonce ≤ 1000000 ∧
    ∀ m, m < proof.nonce →
      strStartsWith (H (pyStrOf p ++ toString m)) (zeros d) = false := by
  simp only [generateProof] at hg
  rcases hmine : (mine H (pyStrOf p) (zeros d)).1 with _ | n
  · rw [hmine] at hg; simp at hg
  · rw [hmine] at hg
    rw [Option.some.injEq] at hg
    have hpair : mine H (pyStrOf p) (zeros d) =
        (some n, (mine H (pyStrOf p) (zeros d)).2) := by
      rw [← hmine]
    obtain ⟨q1, q2, q3, q4, q5⟩ :=
      mineGo_some_spec H (pyStrOf p) (zeros d) mineBudget 0 n _ hpair
    subst hg
    refine ⟨rfl, rfl, rfl, q1, ?_, ?_⟩
    · show n ≤ 1000000
      have hb : (0 : Nat) + mineBudget = 1000001 := rfl
      omega
    · intro m hm
      exact q5 m (Nat.zero_le m) hm

/-- Fewer required leading zeros is a weaker condition. -/
theorem strStartsWith_zeros_mono (s : String) (d d' : Nat) (hle : d' ≤ d)
    (h : strStartsWith s (zeros d) = true) :
    strStartsWith s (zeros d') = true := by
  unfold strStartsWith zeros at *
  have h' : List.replicate d '0' <+: s.data := List.isPrefixOf_iff_prefix.mp h
  have hp : List.replicate d' '0' <+: List.replicate d '0' :=
    ⟨List.replicate (d - d') '0', by rw [← List.replicate_add]; congr 1; omega⟩
  exact List.isPrefixOf_iff_prefix.mpr (hp.trans h')

/-! ## Proof-of-work claims -/

/-- Claim C6: for every payload `p` and difficulty `d` between 1 and 5, if
`generate_proof` succeeds then `verify_proof(p, record)` returns true, and
the record's `proof_hash` has at least `d` leading hexadecimal zero
characters. -/
theorem proof_roundtrip_verifies (H : String → String) (p : PyValue) (d : Nat)
    (proof : Proof) (hd1 : 1 ≤ d) (hd5 : d ≤ 5)
    (hg : generateProof H p d = some proof) :
    verifyProof H p proof = true ∧
    strStartsWith proof.proofHash (zeros d) = true := by
  obtain ⟨h1, h2, h3, h4, -, -⟩ := generateProof_spec H p d proof hg
  have h4' : strStartsWith (H (pyStrOf p ++ toString proof.nonce)) (zeros d) =
      true := h2 ▸ h4
  exact ⟨by simp [verifyProof, h1, h2, h3, h4, h4'], h4⟩

/-- The round-trip claim instantiated: difficulty 1, payload `"a"`, digest
`hashA`; generation succeeds at nonce 0 and the record verifies. -/
theorem proof_roundtrip_verifies_witness :
    (1 : Nat) ≤ 1 ∧ (1 : Nat) ≤ 5 ∧
    generateProof hashA (PyValue.pyStr "a") 1 = some ⟨"0a", 0, "0a0", 1⟩ ∧
    verifyProof hashA (PyValue.pyStr "a") ⟨"0a", 0, "0a0", 1⟩ = true ∧
    strStartsWith "0a0" (zeros 1) = true :=
  ⟨Nat.le_refl 1, by omega, rfl,
    (proof_roundtrip_verifies hashA (PyValue.pyStr "a") 1 ⟨"0a", 0, "0a0", 1⟩
      (Nat.le_refl 1) (by omega) rfl).1,
    (proof_roundtrip_verifies hashA (PyValue.pyStr "a") 1 ⟨"0a", 0, "0a0", 1⟩
      (Nat.le_refl 1) (by omega) rfl).2⟩

/-- Claim C7, amended: a proof generated for `p` is rejected for every
payload `q` whose canonical data string hashes differently from `p`'s (the
recomputed data hash fails the record's `data_hash`). -/
theorem verify_rejects_different_hash (H : String → String) (p q : PyValue)
    (d : Nat) (proof : Proof) (hg : generateProof H p d = some proof)
    (hne : H (pyStrOf q) ≠ H (pyStrOf p)) :
    verifyProof H q proof = false := by
  obtain ⟨h1, -, -, -, -, -⟩ := generateProof_spec H p d proof hg
  simp [verifyProof, h1, hne]

/-- The rejection theorem instantiated: a proof for `"a"` fails to verify
against `"b"` under `hashA`, which separates the two data strings. -/
theorem verify_rejects_different_hash_witness :
    generateProof hashA (PyValue.pyStr "a") 1 = some ⟨"0a", 0, "0a0", 1⟩ ∧
    hashA (pyStrOf (PyValue.pyStr "b")) ≠ hashA (pyStrOf (PyValue.pyStr "a")) ∧
    verifyProof hashA (PyValue.pyStr "b") ⟨"0a", 0, "0a0", 1⟩ = false :=
  ⟨rfl, by decide,
    verify_rejects_different_hash hashA (PyValue.pyStr "a") (PyValue.pyStr "b") 1
      ⟨"0a", 0, "0a0", 1⟩ rfl (by decide)⟩

/-- Claim C7 as stated is false on the code: the integer `1` and the string
`"1"` are different payloads with the same canonical serialization
(`str(1) == str("1") == "1"`), so a proof generated for the integer
verifies against the string, whatever the digest. -/
theorem verify_accepts_distinct_payload_cex :
    PyValue.pyInt 1 ≠ PyValue.pyStr "1" ∧
    pyStrOf (PyValue.pyInt 1) = pyStrOf (PyValue.pyStr "1") ∧
    generateProof hashA (PyValue.pyInt 1) 1 = some ⟨"01", 0, "010", 1⟩ ∧
    verifyProof hashA (PyValue.pyStr "1") ⟨"01", 0, "010", 1⟩ = true :=
  ⟨fun h => PyValue.noConfusion h, rfl, rfl, rfl⟩

/-- A failed search is a `None` result of `generate_proof` (the mining
timeout path). -/
theorem generateProof_eq_none (H : String → String) (p : PyValue) (d : Nat)
    (h : (mine H (pyStrOf p) (zeros d)).1 = none) :
    generateProof H p d = none := by
  simp only [generateProof]; rw [h]

/-- Claim C8, amended: the nonce search is bounded. For every digest,
payload and difficulty, `generate_proof` either returns the smallest
qualifying nonce — which is at most 1000000 — or raises the mining
timeout after exactly 1000001 attempts (nonces 0 through 1000000). -/
theorem generateProof_bounded_search (H : String → String) (p : PyValue)
    (d : Nat) :
    (∃ proof, generateProof H p d = some proof ∧
      strStartsWith (H (pyStrOf p ++ toString proof.nonce)) (zeros d) = true ∧
      proof.nonce ≤ 1000000 ∧
      ∀ m, m < proof.nonce →
        strStartsWith (H (pyStrOf p ++ toString m)) (zeros d) = false)
    ∨ (generateProof H p d = none ∧
       (mine H (pyStrOf p) (zeros d)).2 = 1000001) := by
  rcases hmine : (mine H (pyStrOf p) (zeros d)).1 with _ | n
  · right
    constructor
    · exact generateProof_eq_none H p d hmine
    · have hpair : mine H (pyStrOf p) (zeros d) =
          (none, (mine H (pyStrOf p) (zeros d)).2) := by rw [← hmine]
      exact mineGo_none_fuel H (pyStrOf p) (zeros d) mineBudget 0 _ hpair
  · left
    have hgen : generateProof H p d =
        some ⟨H (pyStrOf p), n, H (pyStrOf p ++ toString n), d⟩ := by
      simp only [generateProof]; rw [hmine]
    obtain ⟨-, h2, -, h4, h5, h6⟩ := generateProof_spec H p d _ hgen
    exact ⟨_, hgen, h2 ▸ h4, h5, h6⟩

/-- Claim C8 as stated is false in its attempt count: under a digest with
no qualifying output the search does fail, but only after 1000001 hash
attempts — one more than the claimed budget of one million. -/
theorem mining_attempt_budget_cex :
    generateProof hashB (PyValue.pyStr "a") 1 = none ∧
    (mine hashB (pyStrOf (PyValue.pyStr "a")) (zeros 1)).2 = 1000001 ∧
    ¬ ((mine hashB (pyStrOf (PyValue.pyStr "a")) (zeros 1)).2 ≤ 1000000) := by
  have hm : mine hashB (pyStrOf (PyValue.pyStr "a")) (zeros 1) =
      (none, mineBudget) :=
    mineGo_none_all hashB (pyStrOf (PyValue.pyStr "a")) (zeros 1)
      (fun _ => rfl) mineBudget 0
  refine ⟨generateProof_eq_none hashB (PyValue.pyStr "a") 1 (by rw [hm]), ?_, ?_⟩
  · rw [hm]; rfl
  · rw [hm]; decide

/-- Claim C10: replacing the `difficulty` field of a generated proof record
with any smaller value (zero included) still verifies: the leading-zero
check uses only the record's own claimed difficulty, which neither hash
binds. -/
theorem verify_accepts_lowered_difficulty (H : String → String) (p : PyValue)
    (d : Nat) (proof : Proof) (d' : Nat)
    (hg : generateProof H p d = some proof) (hd : d' ≤ proof.difficulty) :
    verifyProof H p { proof with difficulty := d' } = true := by
  obtain ⟨h1, h2, h3, h4, -, -⟩ := generateProof_spec H p d proof hg
  have h4' : strStartsWith proof.proofHash (zeros d') = true :=
    strStartsWith_zeros_mono proof.proofHash d d' (h3 ▸ hd) h4
  have h4'' : strStartsWith (H (pyStrOf p ++ toString proof.nonce)) (zeros d') =
      true := h2 ▸ h4'
  simp [verifyProof, h1, h2, h4', h4'']

/-- The lowered-difficulty theorem instantiated: the difficulty-1 record
for `"c"` with its difficulty field zeroed still verifies. -/
theorem verify_accepts_lowered_difficulty_witness :
    generateProof hashA (PyValue.pyStr "c") 1 = some ⟨"0c", 0, "0c0", 1⟩ ∧
    (0 : Nat) ≤ 1 ∧
    verifyProof hashA (PyValue.pyStr "c") ⟨"0c", 0, "0c0", 0⟩ = true :=
  ⟨rfl, Nat.zero_le 1,
    verify_accepts_lowered_difficulty hashA (PyValue.pyStr "c") 1
      ⟨"0c", 0, "0c0", 1⟩ 0 rfl (Nat.zero_le 1)⟩

/-! ## Mesh orchestrator claims -/

/-- Invariant of every reachable orchestrator state: every registered node
has status `"active"` — `register_node` only ever writes `"active"` and no
operation writes anything else. -/
theorem reachable_all_active (s : MeshState) (h : Reachable s) :
    ∀ kv ∈ s.nodes, kv.2.status = "active" := by
  induction h with
  | init => intro kv hkv; simp [initialMeshState] at hkv
  | register s' nodeId info now _ ih =>
    intro kv hkv
    have hkv' : kv ∈ assocSet s'.nodes nodeId
        { info := info, status := "active", lastSeen := now,
          consensusVotes := 0 } := hkv
    rcases mem_assocSet hkv' with rfl | h'
    · rfl
    · exact ih kv h'
  | consensus s' proposal _ ih =>
    intro kv hkv
    by_cases he : s'.nodes.isEmpty
    · have hs : (achieveConsensus s' proposal).2 = s' := by
        simp [achieveConsensus, he]
      rw [hs] at hkv
      exact ih kv hkv
    · have hs : (achieveConsensus s' proposal).2.nodes = s'.nodes.map
          (fun kv => if kv.2.status == "active" && simulateNodeVote proposal
            then (kv.1, { kv.2 with consensusVotes := kv.2.consensusVotes + 1 })
            else kv) := by
        simp [achieveConsensus, he]
      rw [hs] at hkv
      obtain ⟨kv0, hkv0, rfl⟩ := List.mem_map.mp hkv
      have hst := ih kv0 hkv0
      simp [simulateNodeVote, hst]

/-- Claim C3: on every reachable orchestrator state with zero active
nodes, `achieve_consensus` takes the `no_nodes` path and returns the state
unchanged: `consensus_achieved`, `failed_consensus` and every node's
`consensus_votes` are untouched. (On reachable states zero active nodes
means an empty registry, because registration always writes status
`"active"`.) -/
theorem achieveConsensus_zero_active_noop (s : MeshState) (proposal : String)
    (hr : Reachable s)
    (h0 : (s.nodes.filter (fun kv => kv.2.status == "active")).length = 0) :
    achieveConsensus s proposal = (ConsensusOutcome.noNodes, s) := by
  have hall := reachable_all_active s hr
  have hnil : s.nodes = [] := by
    cases hn : s.nodes with
    | nil => rfl
    | cons hd tl =>
      exfalso
      have hhd : hd.2.status = "active" :=
        hall hd (by rw [hn]; exact List.mem_cons_self _ _)
      rw [hn] at h0
      simp [List.filter, hhd] at h0
  simp [achieveConsensus, hnil]

/-- The no-active-nodes theorem instantiated at the initial state, which is
reachable and has zero active nodes. -/
theorem achieveConsensus_zero_active_noop_witness :
    achieveConsensus initialMeshState "p" =
      (ConsensusOutcome.noNodes, initialMeshState) :=
  achieveConsensus_zero_active_noop initialMeshState "p" Reachable.init rfl

/-- Claim C1, amended: re-registering an existing node keeps it (status
`"active"`, `last_seen` updated) but resets its accumulated vote count to
zero — `register_node` writes a fresh record unconditionally. -/
theorem registerNode_existing_resets_vote_count (s : MeshState)
    (nodeId info : String) (now : Nat) (old : NodeRec)
    (hmem : assocGet s.nodes nodeId = some old) :
    assocGet (registerNode s nodeId info now).nodes nodeId =
      some { info := info, status := "active", lastSeen := now,
             consensusVotes := 0 } :=
  assocGet_assocSet_self s.nodes nodeId _

/-- The reset theorem instantiated: node `"a"` is registered and then
re-registered; afterwards its record is the fresh one with zero votes. -/
theorem registerNode_existing_resets_vote_count_witness :
    assocGet (registerNode initialMeshState "a" "m" 0).nodes "a" =
      some ⟨"m", "active", 0, 0⟩ ∧
    assocGet (registerNode (registerNode initialMeshState "a" "m" 0)
        "a" "n" 5).nodes "a" = some ⟨"n", "active", 5, 0⟩ :=
  ⟨rfl, registerNode_existing_resets_vote_count
    (registerNode initialMeshState "a" "m" 0) "a" "n" 5
    ⟨"m", "active", 0, 0⟩ rfl⟩

/-- Claim C1 as stated is false on the code: after one consensus round the
node `"a"` has accumulated vote count 1; re-registering it yields vote
count 0, not 1. -/
theorem register_preserves_votes_cex :
    assocGet ((achieveConsensus (registerNode initialMeshState "a" "m" 0)
        "p").2).nodes "a" = some ⟨"m", "active", 0, 1⟩ ∧
    assocGet (registerNode ((achieveConsensus
        (registerNode initialMeshState "a" "m" 0) "p").2)
        "a" "m" 0).nodes "a" = some ⟨"m", "active", 0, 0⟩ ∧
    (1 : Nat) ≠ 0 :=
  ⟨rfl, rfl, one_ne_zero⟩

/-! ## Credential store claims -/

/-- Claim C2, amended: the issued credential's capability list defaults to
`["basic_access"]` exactly when the argument is omitted (`None`); for any
explicitly passed list — the empty list included — the stored capability
list is exactly the caller's. -/
theorem generateApiKey_default_permissions (store : List (String × KeyData))
    (userId token : String) (now : Nat) :
    ((assocGet (generateApiKey store userId none token now).2 token).map
        KeyData.permissions = some ["basic_access"]) ∧
    ∀ ps : List String,
      (assocGet (generateApiKey store userId (some ps) token now).2 token).map
        KeyData.permissions = some ps := by
  constructor
  · simp [generateApiKey, assocGet_assocSet_self]
  · intro ps
    simp [generateApiKey, assocGet_assocSet_self]

/-- Claim C2 as stated is false on the code: issuing with an explicitly
empty capability list stores the empty list, not `["basic_access"]`. -/
theorem empty_permissions_default_cex :
    (assocGet (generateApiKey [] "u" (some []) "tok" 0).2 "tok").map
      KeyData.permissions = some [] ∧
    some ([] : List String) ≠ some ["basic_access"] :=
  ⟨rfl, by simp⟩

/-- Claim C4, amended: `validate_api_key` returns invalid exactly on an
unknown token; otherwise expired exactly when `now` is past `expires_at`;
otherwise insufficient exactly when a NON-EMPTY required capability is
given and absent (Python truthiness treats an empty string like `None`);
otherwise success with the record's owner and capability list, updating
`last_used` and incrementing `usage_count` by one — the store is unchanged
on every failure path. -/
theorem validateApiKey_characterization (store : List (String × KeyData))
    (apiKey : String) (rp : Option String) (now : Nat) :
    (assocGet store apiKey = none →
      validateApiKey store apiKey rp now = (ValidationResult.invalid, store)) ∧
    ∀ kd : KeyData, assocGet store apiKey = some kd →
      ((kd.expiresAt < now →
          validateApiKey store apiKey rp now =
            (ValidationResult.expired, store)) ∧
       (now ≤ kd.expiresAt → ∀ s : String, rp = some s → s ≠ "" →
          s ∉ kd.permissions →
          validateApiKey store apiKey rp now =
            (ValidationResult.insufficient s, store)) ∧
       (now ≤ kd.expiresAt →
          (rp = none ∨ ∃ s : String, rp = some s ∧ (s = "" ∨ s ∈ kd.permissions)) →
          validateApiKey store apiKey rp now =
            (ValidationResult.valid kd.userId kd.permissions,
             assocSet store apiKey
               { kd with lastUsed := some now,
                         usageCount := kd.usageCount + 1 }))) := by
  constructor
  · intro h
    simp [validateApiKey, h]
  · intro kd h
    refine ⟨?_, ?_, ?_⟩
    · intro hexp
      simp [validateApiKey, h, hexp]
    · intro hexp s hs hne hnotin
      subst hs
      simp [validateApiKey, h, Nat.not_lt.mpr hexp, hne, hnotin]
    · intro hexp hok
      rcases hok with rfl | ⟨s, rfl, hs⟩
      · simp [validateApiKey, h, Nat.not_lt.mpr hexp]
      · rcases hs with rfl | hmem
        · simp [validateApiKey, h, Nat.not_lt.mpr hexp]
        · simp [validateApiKey, h, Nat.not_lt.mpr hexp, hmem]

/-- Claim C4 as stated is false at an empty-string required capability: it
is given and absent from the capability set, yet validation succeeds,
because `if required_permission and ...` skips the check for `""`. -/
theorem validateApiKey_empty_required_cex :
    ("" ∉ ["basic_access"]) ∧
    (validateApiKey [("k", ⟨"u", ["basic_access"], 0, 7776000, none, 0⟩)]
        "k" (some "") 0).1 = ValidationResult.valid "u" ["basic_access"] :=
  ⟨by decide, rfl⟩

/-! ## Rate limiter claim -/

/-- Claim C5: from a fresh identifier, with limit 3 and a 60 second
window, three calls inside one window are admitted and append their
timestamps, the fourth inside the window is denied and appends nothing
(the stored window stays `[t1, t2, t3]`), and a call a full window after
the admitted ones prunes them all and is admitted again. -/
theorem rateLimiting_three_then_deny_then_allow
    (limits : List (String × List ℚ)) (ident : String) (t1 t2 t3 t4 t5 : ℚ)
    (h0 : assocGet limits ident = none)
    (h12 : t1 ≤ t2) (h23 : t2 ≤ t3) (h34 : t3 ≤ t4)
    (hwin : t4 < t1 + 60) (hgap : t3 + 60 ≤ t5) :
    applyRateLimiting limits ident 3 60 t1 = (true, assocSet limits ident [t1]) ∧
    applyRateLimiting (assocSet limits ident [t1]) ident 3 60 t2 =
      (true, assocSet (assocSet limits ident [t1]) ident [t1, t2]) ∧
    applyRateLimiting (assocSet (assocSet limits ident [t1]) ident [t1, t2])
        ident 3 60 t3 =
      (true, assocSet (assocSet (assocSet limits ident [t1]) ident [t1, t2])
        ident [t1, t2, t3]) ∧
    applyRateLimiting (assocSet (assocSet (assocSet limits ident [t1])
        ident [t1, t2]) ident [t1, t2, t3]) ident 3 60 t4 =
      (false, assocSet (assocSet (assocSet (assocSet limits ident [t1])
        ident [t1, t2]) ident [t1, t2, t3]) ident [t1, t2, t3]) ∧
    applyRateLimiting (assocSet (assocSet (assocSet (assocSet limits ident [t1])
        ident [t1, t2]) ident [t1, t2, t3]) ident [t1, t2, t3]) ident 3 60 t5 =
      (true, assocSet (assocSet (assocSet (assocSet (assocSet limits ident [t1])
        ident [t1, t2]) ident [t1, t2, t3]) ident [t1, t2, t3]) ident [t5]) := by
  have c21 : t2 - 60 < t1 := by linarith
  have c31 : t3 - 60 < t1 := by linarith
  have c32 : t3 - 60 < t2 := by linarith
  have c41 : t4 - 60 < t1 := by linarith
  have c42 : t4 - 60 < t2 := by linarith
  have c43 : t4 - 60 < t3 := by linarith
  have n51 : ¬ (t5 - 60 < t1) := by linarith
  have n52 : ¬ (t5 - 60 < t2) := by linarith
  have n53 : ¬ (t5 - 60 < t3) := by linarith
  refine ⟨?_, ?_, ?_, ?_, ?_⟩
  · simp [applyRateLimiting, h0]
  · simp [applyRateLimiting, assocGet_assocSet_self, c21]
  · simp [applyRateLimiting, assocGet_assocSet_self, c31, c32]
  · simp [applyRateLimiting, assocGet_assocSet_self, c41, c42, c43]
  · simp [applyRateLimiting, assocGet_assocSet_self, n51, n52, n53]

/-- The rate-limiter theorem instantiated at times 0, 1, 2, 3 and 62 on a
fresh identifier: admitted, admitted, admitted, denied, admitted. -/
theorem rateLimiting_three_then_deny_then_allow_witness :
    applyRateLimiting [] "i" 3 60 0 = (true, assocSet [] "i" [0]) ∧
    applyRateLimiting (assocSet [] "i" [0]) "i" 3 60 1 =
      (true, assocSet (assocSet [] "i" [0]) "i" [0, 1]) ∧
    applyRateLimiting (assocSet (assocSet [] "i" [0]) "i" [0, 1]) "i" 3 60 2 =
      (true, assocSet (assocSet (assocSet [] "i" [0]) "i" [0, 1])
        "i" [0, 1, 2]) ∧
    applyRateLimiting (assocSet (assocSet (assocSet [] "i" [0]) "i" [0, 1])
        "i" [0, 1, 2]) "i" 3 60 3 =
      (false, assocSet (assocSet (assocSet (assocSet [] "i" [0]) "i" [0, 1])
        "i" [0, 1, 2]) "i" [0, 1, 2]) ∧
    applyRateLimiting (assocSet (assocSet (assocSet (assocSet [] "i" [0])
        "i" [0, 1]) "i" [0, 1, 2]) "i" [0, 1, 2]) "i" 3 60 62 =
      (true, assocSet (assocSet (assocSet (assocSet (assocSet [] "i" [0])
        "i" [0, 1]) "i" [0, 1, 2]) "i" [0, 1, 2]) "i" [62]) :=
  rateLimiting_three_then_deny_then_allow [] "i" 0 1 2 3 62 rfl
    (by norm_num) (by norm_num) (by norm_num) (by norm_num) (by norm_num)

end Kenpire
